import Mathlib

/-!
Shallow embedding of the job-search core of career-coach-ai
(`src/tools/job_search/core.py`): the boolean expression parser, the
backend-specific query compiler, link classification, company extraction,
posting validation, and the search orchestrator loops.

Python strings are modelled as Lean `String` (a list of unicode
codepoints, matching Python's character-level semantics) and the Python
string primitives used by the code — `split`, `strip`, `startswith`,
`endswith`, slicing, `in`, `replace`, `lower`, `count`, `join` — are
given executable structural definitions below.  External effects (HTTP
fetch, trafilatura extraction, the DDGS search provider) are passed in as
explicit outcome values; an exception raised by an external call is an
explicit constructor of the outcome type.
-/

namespace CareerCoach

/-! ### Python string primitives -/

/-- Auxiliary scan for `pySplit`, structural in the fuel (which starts at
the length of the list, enough since each step consumes at least one
character). -/
def splitAux (sep : List Char) : Nat → List Char → List (List Char)
  | 0, l => [l]
  | fuel + 1, l =>
    match l with
    | [] => [[]]
    | c :: rest =>
      if sep ≠ [] ∧ sep.isPrefixOf (c :: rest) then
        [] :: splitAux sep fuel ((c :: rest).drop sep.length)
      else
        match splitAux sep fuel rest with
        | [] => [[c]]
        | h :: t => (c :: h) :: t

/-- Python `s.split(sep)` for a non-empty separator: left-to-right greedy
scan, keeping empty pieces. -/
def pySplit (s sep : String) : List String :=
  (splitAux sep.data s.data.length s.data).map fun l => ⟨l⟩

/-- Python `s.strip()`: remove leading and trailing whitespace. -/
def pyStrip (s : String) : String :=
  ⟨((s.data.dropWhile Char.isWhitespace).reverse.dropWhile Char.isWhitespace).reverse⟩

/-- Python `s.startswith(p)`. -/
def pyStartsWith (s p : String) : Bool := p.data.isPrefixOf s.data

/-- Python `s.endswith(p)`. -/
def pyEndsWith (s p : String) : Bool := p.data.reverse.isPrefixOf s.data.reverse

/-- Python slice `s[n:]`. -/
def pyDrop (s : String) (n : Nat) : String := ⟨s.data.drop n⟩

/-- Python slice `s[:-1]` composed after `s[1:]` is written
`pyDropLast (pyDrop s 1)`; this is `s` without its last character. -/
def pyDropLast (s : String) : String := ⟨s.data.dropLast⟩

/-- Auxiliary scan for `pyContains`. -/
def containsAux (needle : List Char) : List Char → Bool
  | [] => needle.isEmpty
  | c :: rest => needle.isPrefixOf (c :: rest) || containsAux needle rest

/-- Python's substring test `needle in haystack`. -/
def pyContains (haystack needle : String) : Bool :=
  containsAux needle.data haystack.data

/-- Auxiliary scan for `pyReplace`, structural in the fuel. -/
def replaceAux (old new : List Char) : Nat → List Char → List Char
  | 0, l => l
  | fuel + 1, l =>
    match l with
    | [] => []
    | c :: rest =>
      if old ≠ [] ∧ old.isPrefixOf (c :: rest) then
        new ++ replaceAux old new fuel ((c :: rest).drop old.length)
      else
        c :: replaceAux old new fuel rest

/-- Python `s.replace(old, new)` (all non-overlapping occurrences, left to
right; `old` is non-empty at every call site modelled here). -/
def pyReplace (s old new : String) : String :=
  ⟨replaceAux old.data new.data s.data.length s.data⟩

/-- Python `s.lower()`. -/
def pyLower (s : String) : String := ⟨s.data.map Char.toLower⟩

/-- Python `len(s)`. -/
def pyLen (s : String) : Nat := s.data.length

/-- Python `s.count(c)` for a single character. -/
def pyCountChar (s : String) (c : Char) : Nat := s.data.count c

/-- Python `sep.join(parts)`. -/
def pyJoin (sep : String) : List String → String
  | [] => ""
  | [s] => s
  | s :: rest => s ++ sep ++ pyJoin sep rest

/-! ### `parse_expression` -/

/-- The dict returned by `parse_expression`:
`{"required": [...], "excluded": [...], "alternatives": [...]}`. -/
structure ExpressionParts where
  required : List String
  excluded : List String
  alternatives : List String
deriving Repr, DecidableEq

/-- The empty parts dict `{"required": [], "excluded": [], "alternatives": []}`. -/
def ExpressionParts.empty : ExpressionParts := ⟨[], [], []⟩

/-- The body of the `for part in and_parts:` loop of `parse_expression`:
the clause is trimmed, an empty clause is skipped, a clause starting with
`-` extends the exclusions (a parenthesised remainder is split on `||`),
a clause containing `||` extends the alternatives (after removing one
enclosing pair of parentheses), and any other clause is appended to the
required terms. -/
def parseStep (parts : ExpressionParts) (rawPart : String) : ExpressionParts :=
  let part := pyStrip rawPart
  if part = "" then parts
  else if pyStartsWith part "-" then
    -- excluded = part[1:].strip()
    let excluded := pyStrip (pyDrop part 1)
    if pyStartsWith excluded "(" ∧ pyEndsWith excluded ")" then
      -- group_content = excluded[1:-1]
      let group_content := pyDropLast (pyDrop excluded 1)
      let excluded_terms := (pySplit group_content "||").map pyStrip
      { parts with excluded := parts.excluded ++ excluded_terms }
    else
      { parts with excluded := parts.excluded ++ [excluded] }
  else if pyContains part "||" then
    let part := if pyStartsWith part "(" ∧ pyEndsWith part ")" then pyDropLast (pyDrop part 1) else part
    let alternatives := (pySplit part "||").map pyStrip
    { parts with alternatives := parts.alternatives ++ alternatives }
  else
    { parts with required := parts.required ++ [part] }

/-- `parse_expression` from `core.py`: blank input yields all-empty parts,
otherwise the input is split on `&&` and each clause is folded through
`parseStep`. -/
def parse_expression (expression : String) : ExpressionParts :=
  if pyStrip expression = "" then ExpressionParts.empty
  else
    let and_parts := pySplit expression "&&"
    and_parts.foldl parseStep ExpressionParts.empty

/-- The exclusions contributed by a single (already split, not yet trimmed)
`&&`-clause, read off the loop body of `parse_expression`. -/
def clauseExcluded (rawPart : String) : List String :=
  let part := pyStrip rawPart
  if part = "" then []
  else if pyStartsWith part "-" then
    let excluded := pyStrip (pyDrop part 1)
    if pyStartsWith excluded "(" ∧ pyEndsWith excluded ")" then
      (pySplit (pyDropLast (pyDrop excluded 1)) "||").map pyStrip
    else [excluded]
  else []

/-- The alternatives contributed by a single `&&`-clause. -/
def clauseAlternatives (rawPart : String) : List String :=
  let part := pyStrip rawPart
  if part = "" then []
  else if pyStartsWith part "-" then []
  else if pyContains part "||" then
    let part := if pyStartsWith part "(" ∧ pyEndsWith part ")" then pyDropLast (pyDrop part 1) else part
    (pySplit part "||").map pyStrip
  else []

/-- The required terms contributed by a single `&&`-clause. -/
def clauseRequired (rawPart : String) : List String :=
  let part := pyStrip rawPart
  if part = "" then []
  else if pyStartsWith part "-" then []
  else if pyContains part "||" then []
  else [part]

/-! ### `compile_query_for_backend` -/

/-- `compile_query_for_backend` from `core.py`: builds `query_parts`
starting from the double-quoted title, appends the required terms (bare
for google, `AND`-prefixed for bing/yahoo), then the `OR`-joined
alternatives group (parenthesised when more than one alternative,
`AND`-prefixed for bing/yahoo when `query_parts` is non-empty), then the
exclusions (`-"t"` for google, `NOT "t"` for bing/yahoo), and space-joins
the parts. -/
def compile_query_for_backend (title : String) (expression_parts : ExpressionParts)
    (backend : String) : String :=
  let query_parts : List String := ["\"" ++ title ++ "\""]
  let query_parts :=
    if expression_parts.required ≠ [] then
      if backend = "google" then
        query_parts ++ expression_parts.required
      else if backend = "bing" ∨ backend = "yahoo" then
        query_parts ++ expression_parts.required.map (fun req => "AND " ++ req)
      else query_parts
    else query_parts
  let query_parts :=
    if expression_parts.alternatives ≠ [] then
      if backend = "google" ∨ backend = "bing" ∨ backend = "yahoo" then
        let or_group := pyJoin " OR " expression_parts.alternatives
        let or_group :=
          if 1 < expression_parts.alternatives.length then "(" ++ or_group ++ ")" else or_group
        if (backend = "bing" ∨ backend = "yahoo") ∧ query_parts ≠ [] then
          query_parts ++ ["AND " ++ or_group]
        else
          query_parts ++ [or_group]
      else query_parts
    else query_parts
  let query_parts :=
    if expression_parts.excluded ≠ [] then
      if backend = "google" then
        query_parts ++ expression_parts.excluded.map (fun excluded => "-\"" ++ excluded ++ "\"")
      else if backend = "bing" ∨ backend = "yahoo" then
        query_parts ++ expression_parts.excluded.map (fun excluded => "NOT \"" ++ excluded ++ "\"")
      else query_parts
    else query_parts
  pyJoin " " query_parts

/-- The list of query segments contributed by the required terms, per backend. -/
def requiredSegment (backend : String) (required : List String) : List String :=
  if backend = "google" then required
  else if backend = "bing" ∨ backend = "yahoo" then required.map (fun req => "AND " ++ req)
  else []

/-- The list of query segments (zero or one) contributed by the
alternatives, per backend, given that earlier query parts are non-empty
(the quoted title always is). -/
def alternativesSegment (backend : String) (alternatives : List String) : List String :=
  if alternatives = [] then []
  else if backend = "google" ∨ backend = "bing" ∨ backend = "yahoo" then
    let or_group := pyJoin " OR " alternatives
    let or_group := if 1 < alternatives.length then "(" ++ or_group ++ ")" else or_group
    if backend = "bing" ∨ backend = "yahoo" then ["AND " ++ or_group] else [or_group]
  else []

/-- The list of query segments contributed by the excluded terms, per backend. -/
def exclusionsSegment (backend : String) (excluded : List String) : List String :=
  if backend = "google" then excluded.map (fun t => "-\"" ++ t ++ "\"")
  else if backend = "bing" ∨ backend = "yahoo" then excluded.map (fun t => "NOT \"" ++ t ++ "\"")
  else []

/-! ### Link classification and extraction helpers -/

/-- `_is_job_link` from `core.py`: Greenhouse domains require a `/jobs/`
segment in the URL; Lever and Ashby domains require `url.count('/') >= 4`;
anything else is not a job link. -/
def is_job_link (url domain : String) : Bool :=
  if pyContains domain "boards.greenhouse.io" then pyContains url "/jobs/"
  else if pyContains domain "jobs.lever.co" then decide (4 ≤ pyCountChar url (Char.ofNat 47))
  else if pyContains domain "jobs.ashbyhq.com" then decide (4 ≤ pyCountChar url (Char.ofNat 47))
  else false

/-- `_extract_company_name` from `core.py`: on each known ATS domain the
company is `url.split('/')[3]` when that index exists, `"unknown"`
otherwise; unknown domains give `"unknown"`.  (The `try/except` wrapper in
the source is dead code: `split` and indexing under the length guard
cannot raise.) -/
def extract_company_name (url domain : String) : String :=
  if pyContains domain "boards.greenhouse.io" then
    let parts := pySplit url "/"
    if 3 < parts.length then parts.getD 3 "unknown" else "unknown"
  else if pyContains domain "jobs.lever.co" then
    let parts := pySplit url "/"
    if 3 < parts.length then parts.getD 3 "unknown" else "unknown"
  else if pyContains domain "jobs.ashbyhq.com" then
    let parts := pySplit url "/"
    if 3 < parts.length then parts.getD 3 "unknown" else "unknown"
  else "unknown"

/-- `_extract_job_title` from `core.py`. -/
def extract_job_title (title_text company : String) : String :=
  if title_text = "" then "Software Engineer"
  else
    let title := pyReplace (pyReplace title_text (" - " ++ company) "") (" at " ++ company) ""
    let title := pyReplace title " - Jobs at " " - "
    let title := pyReplace (pyReplace title " - Greenhouse" "") " - Lever" ""
    let title := (pySplit title " - ").headD ""
    if pyLen (pyStrip title) < 5 then "Software Engineer"
    else pyStrip title

/-! ### `_validate_job_posting` -/

/-- Outcome of the `requests.get` call: either the call raises (network
failure, timeout, ...) or it returns a response with a status code and a
body text. -/
inductive FetchOutcome where
  | raised (err : String)
  | ok (status : Nat) (text : String)
deriving Repr, DecidableEq

/-- Outcome of the `trafilatura.extract` call: either it raises or it
returns `None` or a string. -/
inductive ExtractOutcome where
  | raised (err : String)
  | ok (result : Option String)
deriving Repr, DecidableEq

/-- The fixed indicator vocabulary `primary_indicators` of
`_validate_job_posting`. -/
def primary_indicators : List String :=
  ["equal opp", "equal emp", "location", "employment",
   "benefits", "apply now", "apply for this job"]

/-- Python's `repr` of a list of strings, as interpolated by an f-string
(`f"...{found_primary}"`); `\x27` is the single-quote character. -/
def pyListRepr (l : List String) : String :=
  "[" ++ pyJoin ", " (l.map fun s => "\x27" ++ s ++ "\x27") ++ "]"

/-- `_validate_job_posting` from `core.py`, with the two external calls
passed in as outcomes.  The outer `try/except` catches a raising fetch and
returns `(True, "Validation error (assumed valid): ...")`; a non-200
status is rejected with the status as reason; a raising or empty
extraction (`if not clean_text`) is rejected; otherwise the page is
accepted iff at least one case-insensitively matched indicator is found
and the raw body is longer than 500 characters. -/
def validate_job_posting (fetch : FetchOutcome) (extract : ExtractOutcome) : Bool × String :=
  match fetch with
  | .raised e => (true, "Validation error (assumed valid): " ++ e)
  | .ok status content =>
    if status ≠ 200 then (false, "HTTP " ++ toString status)
    else
      let clean_text : Option String :=
        match extract with
        | .raised _ => none
        | .ok r => r
      match clean_text with
      | none => (false, "Trafilatura failed to extract content")
      | some t =>
        if t = "" then (false, "Trafilatura failed to extract content")
        else
          let content_lower := pyLower t
          let found_primary := primary_indicators.filter (fun ind => pyContains content_lower ind)
          if found_primary ≠ [] ∧ 500 < pyLen content then
            (true, "Valid job posting: " ++ pyListRepr found_primary)
          else
            (false, "Validation failed - Found indicators: " ++ pyListRepr found_primary ++
              ", Content length: " ++ toString (pyLen content) ++
              ", Clean text length: " ++ toString (pyLen t))

/-! ### The `search_jobs` orchestrator loops -/

/-- One `{href, title}` entry returned by the search provider. -/
structure SearchResult where
  href : String
  title : String
deriving Repr, DecidableEq

/-- `clean_url = href.split('?')[0].split('#')[0]` from `search_jobs`. -/
def cleanUrlOf (href : String) : String :=
  (pySplit ((pySplit href "?").headD "") "#").headD ""

/-- The `job_entry` string stored in `found_links`:
`f"{company} - {job_title}: {clean_url}"` built from the cleaned URL. -/
def jobEntryOf (domain : String) (r : SearchResult) : String :=
  let clean_url := cleanUrlOf r.href
  let company := extract_company_name clean_url domain
  let job_title := extract_job_title r.title company
  company ++ " - " ++ job_title ++ ": " ++ clean_url

/-- `found_links.add(entry)` on the set modelled as a duplicate-free list
in insertion order. -/
def setAdd (found : List String) (entry : String) : List String :=
  if entry ∈ found then found else found ++ [entry]

/-- The inner `for result in page_results_list:` loop of `search_jobs`:
each result's raw `href` is checked for the domain substring and with
`_is_job_link`; accepted links are cleaned, turned into a `job_entry`, and
added to `found_links` when `_validate_job_posting` (abstracted as
`validate`, applied to the cleaned URL) accepts; the loop breaks once
`len(found_links) >= limit`. -/
def processPageResults (domain : String) (limit : Nat) (validate : String → Bool × String) :
    List SearchResult → List String → List String
  | [], found => found
  | r :: rest, found =>
    if pyContains r.href domain ∧ is_job_link r.href domain = true then
      if (validate (cleanUrlOf r.href)).1 then
        let found' := setAdd found (jobEntryOf domain r)
        if limit ≤ found'.length then found'
        else processPageResults domain limit validate rest found'
      else processPageResults domain limit validate rest found
    else processPageResults domain limit validate rest found

/-- The `for page in range(1, 6):` loop of `search_jobs`, structural in the
remaining page count (5 at the start).  `pageResults page = none` models
`ddgs.text` raising on that page (the exception is caught by the per-domain
handler, which keeps the accumulated links and moves on); `some []` is an
empty page, which also ends the domain. -/
def processPages (domain : String) (limit : Nat) (validate : String → Bool × String)
    (pageResults : Nat → Option (List SearchResult)) :
    Nat → Nat → List String → List String
  | _, 0, found => found
  | page, fuel + 1, found =>
    if limit ≤ found.length then found
    else
      match pageResults page with
      | none => found
      | some [] => found
      | some prs =>
        processPages domain limit validate pageResults (page + 1) fuel
          (processPageResults domain limit validate prs found)

/-- One configured ATS domain together with the provider's per-page
responses for the query compiled for it. -/
structure SearchDomain where
  name : String
  pageResults : Nat → Option (List SearchResult)

/-- The `for domain in domains:` loop of `search_jobs`: the accumulated
`found_links` set across all domains, starting empty. -/
def searchFoundLinks (domains : List SearchDomain) (limit : Nat)
    (validate : String → Bool × String) : List String :=
  domains.foldl (fun found d => processPages d.name limit validate d.pageResults 1 5 found) []

/-! ### Structure of the compiled query -/

theorem compile_query_decomposition (title : String) (parts : ExpressionParts)
    (backend : String) :
    compile_query_for_backend title parts backend =
      pyJoin " " (["\"" ++ title ++ "\""]
        ++ requiredSegment backend parts.required
        ++ alternativesSegment backend parts.alternatives
        ++ exclusionsSegment backend parts.excluded) := by
  obtain ⟨req, exc, alts⟩ := parts
  by_cases hr : req = [] <;> by_cases he : exc = [] <;> by_cases ha : alts = [] <;>
    by_cases hg : backend = "google" <;> by_cases hb : backend = "bing" <;>
      by_cases hy : backend = "yahoo" <;>
  simp_all [compile_query_for_backend, requiredSegment, alternativesSegment,
    exclusionsSegment]

/-- C1: compiling the title "Software Engineer" with required ["remote"],
alternatives ["ai", "robotics"] and excluded ["frontend"] for the google
backend yields exactly `"Software Engineer" remote (ai OR robotics)
-"frontend"`; and for every title, filter and backend the compiled query
is the space-join of the quoted title, the required-term segments, the
alternatives-group segment and the exclusion segments, in that fixed
order. -/
theorem C1_compile_query_fixed_order :
    compile_query_for_backend "Software Engineer" ⟨["remote"], ["frontend"], ["ai", "robotics"]⟩
        "google" = "\"Software Engineer\" remote (ai OR robotics) -\"frontend\"" ∧
    ∀ (title : String) (parts : ExpressionParts) (backend : String),
      compile_query_for_backend title parts backend =
        pyJoin " " (["\"" ++ title ++ "\""]
          ++ requiredSegment backend parts.required
          ++ alternativesSegment backend parts.alternatives
          ++ exclusionsSegment backend parts.excluded) :=
  ⟨by decide, compile_query_decomposition⟩

/-- C10: for every backend string other than "google", "bing" and "yahoo",
`compile_query_for_backend` returns exactly the double-quoted title; all
required, alternative and excluded terms are silently dropped. -/
theorem C10_unknown_backend_drops_terms (title : String) (parts : ExpressionParts)
    (backend : String) (hg : backend ≠ "google") (hb : backend ≠ "bing")
    (hy : backend ≠ "yahoo") :
    compile_query_for_backend title parts backend = "\"" ++ title ++ "\"" := by
  rw [compile_query_decomposition]
  simp [requiredSegment, alternativesSegment, exclusionsSegment, hg, hb, hy, pyJoin]

/-- Witness for C10 at the backend string "duckduckgo". -/
theorem C10_unknown_backend_witness :
    compile_query_for_backend "Software Engineer" ⟨["remote"], ["frontend"], ["ai", "robotics"]⟩
      "duckduckgo" = "\"Software Engineer\"" :=
  C10_unknown_backend_drops_terms _ _ _ (by decide) (by decide) (by decide)

/-- C3: for the bing and yahoo backends, every required term is prefixed
with capitalized `AND`, every excluded term is rendered `NOT "<term>"`,
and the `OR`-joined alternatives group (parenthesised when there is more
than one alternative) is prefixed with `AND`; the quoted title is always
present before it, so other terms indeed already exist in the output. -/
theorem C3_bing_yahoo_rendering (title : String) (parts : ExpressionParts) (backend : String)
    (h : backend = "bing" ∨ backend = "yahoo") :
    compile_query_for_backend title parts backend =
      pyJoin " " (["\"" ++ title ++ "\""]
        ++ parts.required.map (fun req => "AND " ++ req)
        ++ (if parts.alternatives = [] then []
            else ["AND " ++ (if 1 < parts.alternatives.length then
                  "(" ++ pyJoin " OR " parts.alternatives ++ ")"
                else pyJoin " OR " parts.alternatives)])
        ++ parts.excluded.map (fun t => "NOT \"" ++ t ++ "\"")) := by
  rw [compile_query_decomposition]
  rcases h with h | h <;> subst h <;>
    simp [requiredSegment, alternativesSegment, exclusionsSegment]

/-- Witness for C3 at the bing backend and the spec's example filter. -/
theorem C3_bing_yahoo_witness :
    compile_query_for_backend "Software Engineer" ⟨["remote"], ["frontend"], ["ai", "robotics"]⟩
      "bing" = "\"Software Engineer\" AND remote AND (ai OR robotics) NOT \"frontend\"" := by
  rw [C3_bing_yahoo_rendering _ _ _ (Or.inl rfl)]; decide

/-! ### Structure of the parsed expression -/

theorem parseStep_decomp (parts : ExpressionParts) (rawPart : String) :
    parseStep parts rawPart =
      ⟨parts.required ++ clauseRequired rawPart,
       parts.excluded ++ clauseExcluded rawPart,
       parts.alternatives ++ clauseAlternatives rawPart⟩ := by
  obtain ⟨req, exc, alts⟩ := parts
  simp only [parseStep, clauseRequired, clauseExcluded, clauseAlternatives]
  split_ifs <;> simp

theorem foldl_parseStep (clauses : List String) (acc : ExpressionParts) :
    clauses.foldl parseStep acc =
      ⟨acc.required ++ (clauses.map clauseRequired).flatten,
       acc.excluded ++ (clauses.map clauseExcluded).flatten,
       acc.alternatives ++ (clauses.map clauseAlternatives).flatten⟩ := by
  induction clauses generalizing acc with
  | nil => simp
  | cons c cs ih =>
    simp [List.foldl_cons, parseStep_decomp, ih, List.append_assoc]

theorem splitAux_no_sep {d : Char} {ds l : List Char} (fuel : Nat) (h : d ∉ l) :
    splitAux (d :: ds) fuel l = [l] := by
  induction fuel generalizing l with
  | zero => rfl
  | succ n ih =>
    cases l with
    | nil => rfl
    | cons c rest =>
      have hne : (d == c) = false :=
        beq_eq_false_iff_ne.mpr fun hdc => h (hdc ▸ List.mem_cons_self ..)
      have hp : (d :: ds).isPrefixOf (c :: rest) = false := by
        simp [List.isPrefixOf, hne]
      have h' : d ∉ rest := fun hm => h (List.mem_cons_of_mem _ hm)
      simp [splitAux, hp, ih h']

theorem pyStrip_empty_all_ws {e : String} (h : pyStrip e = "") :
    ∀ c ∈ e.data, c.isWhitespace := by
  have hd : (((e.data.dropWhile Char.isWhitespace).reverse.dropWhile
      Char.isWhitespace).reverse : List Char) = [] := by
    simpa [pyStrip] using congrArg String.data h
  rw [List.reverse_eq_nil_iff, List.dropWhile_eq_nil_iff] at hd
  intro c hc
  rw [← List.takeWhile_append_dropWhile (p := Char.isWhitespace) (l := e.data)] at hc
  rcases List.mem_append.mp hc with h1 | h2
  · exact List.mem_takeWhile_imp h1
  · exact hd _ (List.mem_reverse.mpr h2)

theorem pySplit_blank {e : String} (h : pyStrip e = "") : pySplit e "&&" = [e] := by
  have hmem : (Char.ofNat 38) ∉ e.data := fun hm => by
    have := pyStrip_empty_all_ws h _ hm
    simp [Char.isWhitespace] at this
  have hsep : ("&&" : String).data = [Char.ofNat 38, Char.ofNat 38] := by decide
  simp [pySplit, hsep, splitAux_no_sep _ hmem]

/-- C2: parsing "senior && remote && -firmware && (robotics || iot)"
yields required ["senior", "remote"], excluded ["firmware"] and
alternatives ["robotics", "iot"]; and for every input the parse result is
the in-order concatenation, over the `&&`-split clauses, of the per-clause
contributions: a clause starting with `-` contributes exclusions (several
when the remainder is parenthesised and `||`-split), a non-excluded clause
containing `||` contributes alternatives, and any other non-blank clause
contributes itself as a required term. -/
theorem C2_parse_expression_classification :
    (parse_expression "senior && remote && -firmware && (robotics || iot)" =
      ⟨["senior", "remote"], ["firmware"], ["robotics", "iot"]⟩) ∧
    ∀ e : String,
      parse_expression e =
        ⟨((pySplit e "&&").map clauseRequired).flatten,
         ((pySplit e "&&").map clauseExcluded).flatten,
         ((pySplit e "&&").map clauseAlternatives).flatten⟩ := by
  refine ⟨by decide, fun e => ?_⟩
  by_cases h : pyStrip e = ""
  · rw [parse_expression, if_pos h, pySplit_blank h]
    simp [clauseRequired, clauseExcluded, clauseAlternatives, h, ExpressionParts.empty]
  · rw [parse_expression, if_neg h]
    simp [foldl_parseStep, ExpressionParts.empty]

/-! ### Link classification and company extraction -/

/-- Counterexample to C7 as stated: the Lever-domain URL
"https://jobs.lever.co/acme" has 4 `/`-delimited segments
(`["https:", "", "jobs.lever.co", "acme"]`), yet `_is_job_link` rejects it
— the code requires `url.count('/') >= 4`, i.e. at least 5 segments, not
at least 4. -/
theorem C7_counterexample_lever_segments :
    pyContains "jobs.lever.co" "jobs.lever.co" = true ∧
    pyContains "jobs.lever.co" "boards.greenhouse.io" = false ∧
    4 ≤ (pySplit "https://jobs.lever.co/acme" "/").length ∧
    is_job_link "https://jobs.lever.co/acme" "jobs.lever.co" = false := by decide

/-- C7 (amended): `_is_job_link` accepts a Greenhouse-domain URL iff it
contains a "/jobs/" segment, and a Lever-domain or (non-Lever) Ashby-domain
URL iff it contains at least 4 `/` characters (equivalently, at least 5
`/`-delimited segments). -/
theorem C7_is_job_link_rules (url domain : String) :
    (pyContains domain "boards.greenhouse.io" = true →
      (is_job_link url domain = true ↔ pyContains url "/jobs/" = true)) ∧
    (pyContains domain "boards.greenhouse.io" = false →
      pyContains domain "jobs.lever.co" = true →
      (is_job_link url domain = true ↔ 4 ≤ pyCountChar url (Char.ofNat 47))) ∧
    (pyContains domain "boards.greenhouse.io" = false →
      pyContains domain "jobs.lever.co" = false →
      pyContains domain "jobs.ashbyhq.com" = true →
      (is_job_link url domain = true ↔ 4 ≤ pyCountChar url (Char.ofNat 47))) := by
  refine ⟨fun h1 => ?_, fun h1 h2 => ?_, fun h1 h2 h3 => ?_⟩
  · simp [is_job_link, h1]
  · simp [is_job_link, h1, h2]
  · simp [is_job_link, h1, h2, h3]

/-- Witness for C7 (amended) on a Greenhouse URL with "/jobs/" and a Lever
URL with 4 slashes. -/
theorem C7_is_job_link_witness :
    is_job_link "https://boards.greenhouse.io/acme/jobs/123" "boards.greenhouse.io" = true ∧
    is_job_link "https://jobs.lever.co/acme/job-id" "jobs.lever.co" = true := by
  constructor
  · exact ((C7_is_job_link_rules "https://boards.greenhouse.io/acme/jobs/123"
      "boards.greenhouse.io").1 (by decide)).mpr (by decide)
  · exact ((C7_is_job_link_rules "https://jobs.lever.co/acme/job-id"
      "jobs.lever.co").2.1 (by decide) (by decide)).mpr (by decide)

/-- C8: on every known ATS domain, `_extract_company_name` returns segment
index 3 (0-based) of the URL split on `/`, and "unknown" when the split is
too short; it is a total function of the URL and domain (the `try/except`
in the source is unreachable), hence deterministic and non-raising. -/
theorem C8_extract_company_segment3 (url domain : String)
    (h : pyContains domain "boards.greenhouse.io" = true ∨
      pyContains domain "jobs.lever.co" = true ∨
      pyContains domain "jobs.ashbyhq.com" = true) :
    extract_company_name url domain =
      if 3 < (pySplit url "/").length then (pySplit url "/").getD 3 "unknown"
      else "unknown" := by
  by_cases h1 : pyContains domain "boards.greenhouse.io" = true <;>
    by_cases h2 : pyContains domain "jobs.lever.co" = true <;>
      by_cases h3 : pyContains domain "jobs.ashbyhq.com" = true <;>
  simp_all [extract_company_name]

/-- Witness for C8: segment 3 of the spec's Greenhouse example is "acme". -/
theorem C8_extract_company_witness :
    extract_company_name "https://boards.greenhouse.io/acme/jobs/123"
      "boards.greenhouse.io" = "acme" := by
  rw [C8_extract_company_segment3 _ _ (Or.inl (by decide))]; decide

/-! ### `_validate_job_posting` behaviour -/

theorem filter_ne_nil_iff {p : String → Bool} {l : List String} :
    l.filter p ≠ [] ↔ ∃ x ∈ l, p x = true := by
  rw [Ne, List.filter_eq_nil_iff]
  push_neg
  simp

set_option maxRecDepth 10000 in
/-- Counterexample to C4 as stated: the acceptance reason does not report
the content length — two accepted pages whose raw bodies have different
lengths (501 and 600 characters) produce the identical reason string. -/
theorem C4_counterexample_reason_no_length :
    (validate_job_posting (.ok 200 ⟨List.replicate 501 (Char.ofNat 97)⟩)
        (.ok (some "apply now"))).1 = true ∧
    (validate_job_posting (.ok 200 ⟨List.replicate 600 (Char.ofNat 97)⟩)
        (.ok (some "apply now"))).1 = true ∧
    pyLen (⟨List.replicate 501 (Char.ofNat 97)⟩ : String) ≠
      pyLen (⟨List.replicate 600 (Char.ofNat 97)⟩ : String) ∧
    (validate_job_posting (.ok 200 ⟨List.replicate 501 (Char.ofNat 97)⟩)
        (.ok (some "apply now"))).2 =
      (validate_job_posting (.ok 200 ⟨List.replicate 600 (Char.ofNat 97)⟩)
        (.ok (some "apply now"))).2 := by decide

/-- C4 (amended): given an HTTP 200 response and a successful (non-`None`,
non-empty) extraction, the page is accepted iff at least one
case-insensitive indicator phrase occurs in the extracted text AND the raw
pre-extraction body exceeds 500 characters; the rejection reason reports
the indicators found and the content length, while the acceptance reason
reports only the indicators found. -/
theorem C4_validate_acceptance (content t : String) (ht : t ≠ "") :
    ((validate_job_posting (.ok 200 content) (.ok (some t))).1 = true ↔
      ((∃ ind ∈ primary_indicators, pyContains (pyLower t) ind = true) ∧
        500 < pyLen content)) ∧
    ((validate_job_posting (.ok 200 content) (.ok (some t))).1 = true →
      (validate_job_posting (.ok 200 content) (.ok (some t))).2 =
        "Valid job posting: " ++
          pyListRepr (primary_indicators.filter fun ind => pyContains (pyLower t) ind)) ∧
    ((validate_job_posting (.ok 200 content) (.ok (some t))).1 = false →
      (validate_job_posting (.ok 200 content) (.ok (some t))).2 =
        "Validation failed - Found indicators: " ++
          pyListRepr (primary_indicators.filter fun ind => pyContains (pyLower t) ind) ++
          ", Content length: " ++ toString (pyLen content) ++
          ", Clean text length: " ++ toString (pyLen t)) := by
  have key : validate_job_posting (.ok 200 content) (.ok (some t)) =
      if (primary_indicators.filter fun ind => pyContains (pyLower t) ind) ≠ [] ∧
          500 < pyLen content then
        (true, "Valid job posting: " ++
          pyListRepr (primary_indicators.filter fun ind => pyContains (pyLower t) ind))
      else
        (false, "Validation failed - Found indicators: " ++
          pyListRepr (primary_indicators.filter fun ind => pyContains (pyLower t) ind) ++
          ", Content length: " ++ toString (pyLen content) ++
          ", Clean text length: " ++ toString (pyLen t)) := by
    simp [validate_job_posting, ht]
  refine ⟨?_, ?_, ?_⟩
  · rw [key]
    split_ifs with hc
    · exact iff_of_true rfl ⟨filter_ne_nil_iff.mp hc.1, hc.2⟩
    · refine iff_of_false (by simp) ?_
      rintro ⟨hex, hlen⟩
      exact hc ⟨filter_ne_nil_iff.mpr hex, hlen⟩
  · rw [key]; split_ifs <;> simp
  · rw [key]; split_ifs <;> simp

set_option maxRecDepth 10000 in
/-- Witness for C4 (amended): a 501-character body whose extracted text
contains "Apply Now" (case-insensitively) is accepted. -/
theorem C4_validate_acceptance_witness :
    (validate_job_posting (.ok 200 ⟨List.replicate 501 (Char.ofNat 97)⟩)
      (.ok (some "Apply Now today"))).1 = true :=
  ((C4_validate_acceptance _ _ (by decide)).1).mpr
    ⟨⟨"apply now", by decide, by decide⟩, by decide⟩

/-- Counterexample to C5 as stated: a network failure (the fetch raising,
here with "ConnectionError") does not yield a rejection — the outer
exception handler returns accepted=true with the error flagged. -/
theorem C5_counterexample_network_failure :
    (validate_job_posting (.raised "ConnectionError") (.ok none)).1 = true ∧
    (validate_job_posting (.raised "ConnectionError") (.ok none)).2 =
      "Validation error (assumed valid): ConnectionError" := by decide

/-- C5 (amended): `_validate_job_posting` is a total function returning an
(accepted, reason) verdict in every case: a non-200 status yields a
rejection whose reason carries the HTTP status; a raising fetch — which is
how a network failure surfaces — and any other exception reaching the
outer handler yield an accepted=true verdict whose reason flags the error
(the assume-valid asymmetry); a raising, `None` or empty extraction yields
a rejection. -/
theorem C5_validate_error_handling (fetch : FetchOutcome) (extract : ExtractOutcome) :
    (∀ e, fetch = .raised e →
      validate_job_posting fetch extract =
        (true, "Validation error (assumed valid): " ++ e)) ∧
    (∀ status content, fetch = .ok status content → status ≠ 200 →
      validate_job_posting fetch extract = (false, "HTTP " ++ toString status)) ∧
    (∀ content, fetch = .ok 200 content →
      (∀ e, extract = .raised e →
        validate_job_posting fetch extract =
          (false, "Trafilatura failed to extract content")) ∧
      (extract = .ok none →
        validate_job_posting fetch extract =
          (false, "Trafilatura failed to extract content")) ∧
      (extract = .ok (some "") →
        validate_job_posting fetch extract =
          (false, "Trafilatura failed to extract content"))) := by
  refine ⟨?_, ?_, ?_⟩
  · rintro e rfl; rfl
  · rintro status content rfl hs
    simp [validate_job_posting, hs]
  · rintro content rfl
    refine ⟨fun e he => ?_, fun hx => ?_, fun hx => ?_⟩
    · subst he; rfl
    · subst hx; rfl
    · subst hx; rfl

/-- Witness for C5 (amended): a 404 response is rejected with "HTTP 404". -/
theorem C5_validate_error_witness :
    validate_job_posting (.ok 404 "body") (.ok none) = (false, "HTTP 404") := by
  have h := (C5_validate_error_handling (.ok 404 "body") (.ok none)).2.1 404 "body" rfl
    (by decide)
  exact h.trans (by decide)

/-! ### The limit invariant of the orchestrator loops -/

theorem setAdd_length_le (found : List String) (entry : String) :
    (setAdd found entry).length ≤ found.length + 1 := by
  unfold setAdd; split_ifs <;> simp

theorem mem_setAdd {found : List String} {e entry : String}
    (h : entry ∈ setAdd found e) : entry ∈ found ∨ entry = e := by
  unfold setAdd at h
  split_ifs at h
  · exact Or.inl h
  · rcases List.mem_append.mp h with h | h
    · exact Or.inl h
    · exact Or.inr (List.mem_singleton.mp h)

theorem processPageResults_length_le (domain : String) (limit : Nat)
    (validate : String → Bool × String) (results : List SearchResult) :
    ∀ found : List String, found.length < limit →
      (processPageResults domain limit validate results found).length ≤ limit := by
  induction results with
  | nil => exact fun found h => Nat.le_of_lt h
  | cons r rest ih =>
    intro found h
    simp only [processPageResults]
    split_ifs with h1 h2 h3
    · have := setAdd_length_le found (jobEntryOf domain r)
      omega
    · refine ih _ ?_
      omega
    · exact ih found h
    · exact ih found h

theorem processPages_length_le (domain : String) (limit : Nat)
    (validate : String → Bool × String) (pageResults : Nat → Option (List SearchResult))
    (fuel : Nat) : ∀ page (found : List String), found.length ≤ limit →
      (processPages domain limit validate pageResults page fuel found).length ≤ limit := by
  induction fuel with
  | zero => exact fun page found h => h
  | succ n ih =>
    intro page found h
    simp only [processPages]
    split_ifs with h1
    · exact h
    · split
      · exact h
      · exact h
      · exact ih _ _ (processPageResults_length_le _ _ _ _ _ (by omega))

theorem searchFoundLinks_length_le (domains : List SearchDomain) (limit : Nat)
    (validate : String → Bool × String) :
    (searchFoundLinks domains limit validate).length ≤ limit := by
  suffices h : ∀ found : List String, found.length ≤ limit →
      (domains.foldl (fun found d => processPages d.name limit validate d.pageResults 1 5 found)
        found).length ≤ limit from h [] (Nat.zero_le _)
  induction domains with
  | nil => exact fun found h => h
  | cons d ds ih =>
    exact fun found h => ih _ (processPages_length_le _ _ _ _ _ _ _ h)

/-- C6: the accepted result set never exceeds the overall limit at any
point of the loops: the inner result loop maps a sub-limit set to an
at-most-limit set, the page loop and the domain fold preserve the
at-most-limit bound, and the final accumulated set of a whole search is at
most the limit. -/
theorem C6_limit_invariant :
    (∀ domain limit validate results (found : List String), found.length < limit →
      (processPageResults domain limit validate results found).length ≤ limit) ∧
    (∀ domain limit validate pageResults page fuel (found : List String),
      found.length ≤ limit →
      (processPages domain limit validate pageResults page fuel found).length ≤ limit) ∧
    (∀ domains limit validate, (searchFoundLinks domains limit validate).length ≤ limit) :=
  ⟨fun d l v rs f h => processPageResults_length_le d l v rs f h,
   fun d l v pr p fl f h => processPages_length_le d l v pr fl p f h,
   fun ds l v => searchFoundLinks_length_le ds l v⟩

/-- Witness for C6 at limit 1 with two valid Greenhouse results: at most
one entry is accepted. -/
theorem C6_limit_invariant_witness :
    ([] : List String).length < 1 ∧
    (processPageResults "boards.greenhouse.io" 1 (fun u => (true, u))
      [⟨"https://boards.greenhouse.io/acme/jobs/1", "Engineer Position"⟩,
       ⟨"https://boards.greenhouse.io/acme/jobs/2", "Manager Position"⟩] []).length ≤ 1 :=
  ⟨by decide, C6_limit_invariant.1 "boards.greenhouse.io" 1 _ _ [] (by decide)⟩

/-! ### URL normalization in the orchestrator -/

theorem splitAux_ne_nil (sep : List Char) (fuel : Nat) (l : List Char) :
    splitAux sep fuel l ≠ [] := by
  induction fuel generalizing l with
  | zero => simp [splitAux]
  | succ n ih =>
    cases l with
    | nil => simp [splitAux]
    | cons c rest =>
      simp only [splitAux]
      split_ifs
      · simp
      · cases h : splitAux sep n rest with
        | nil => simp
        | cons a as => simp

theorem splitAux_single_head (q : Char) (fuel : Nat) (l : List Char) (hf : l.length ≤ fuel) :
    (splitAux [q] fuel l).headD [] = l.takeWhile (fun c => !(c == q)) := by
  induction fuel generalizing l with
  | zero =>
    have : l = [] := List.length_eq_zero.mp (Nat.le_zero.mp hf)
    subst this; rfl
  | succ n ih =>
    cases l with
    | nil => rfl
    | cons c rest =>
      simp only [splitAux]
      by_cases hc : q = c
      · subst hc
        rw [if_pos (by simp [List.isPrefixOf])]
        simp [List.takeWhile_cons]
      · have hq : (q == c) = false := beq_eq_false_iff_ne.mpr hc
        rw [if_neg (by simp [List.isPrefixOf, hq])]
        cases hsp : splitAux [q] n rest with
        | nil => exact absurd hsp (splitAux_ne_nil _ _ _)
        | cons a as =>
          have hrec := ih rest (by simp at hf; omega)
          rw [hsp] at hrec
          simp only [List.headD_cons] at hrec ⊢
          have hcq : (c == q) = false := beq_eq_false_iff_ne.mpr fun h => hc h.symm
          simp [List.takeWhile_cons, hcq, hrec]

theorem pySplit_head_data (s : String) (q : Char) :
    ((pySplit s ⟨[q]⟩).headD "").data = s.data.takeWhile (fun c => !(c == q)) := by
  unfold pySplit
  cases hsp : splitAux [q] s.data.length s.data with
  | nil => exact absurd hsp (splitAux_ne_nil _ _ _)
  | cons a as =>
    have h := splitAux_single_head q s.data.length s.data (le_refl _)
    rw [hsp] at h
    simpa using h

theorem cleanUrlOf_data (href : String) :
    (cleanUrlOf href).data =
      (href.data.takeWhile fun c => !(c == Char.ofNat 63)).takeWhile
        (fun c => !(c == Char.ofNat 35)) := by
  have h1 : ("?" : String) = ⟨[Char.ofNat 63]⟩ := by decide
  have h2 : ("#" : String) = ⟨[Char.ofNat 35]⟩ := by decide
  show ((pySplit ((pySplit href "?").headD "") "#").headD "").data = _
  rw [h2, pySplit_head_data, h1, pySplit_head_data]

theorem containsAux_single (d : Char) (l : List Char) :
    containsAux [d] l = l.contains d := by
  induction l with
  | nil => rfl
  | cons c rest ih =>
    simp only [containsAux, List.isPrefixOf, ih, List.contains_cons]
    by_cases hdc : d = c <;> simp [hdc]

/-- The cleaned URL contains no query separator: the query string (and,
analogously, the fragment) really is stripped by
`href.split('?')[0].split('#')[0]`. -/
theorem cleanUrl_no_query (href : String) :
    pyContains (cleanUrlOf href) "?" = false := by
  have hq : Char.ofNat 63 ∉ (cleanUrlOf href).data := by
    rw [cleanUrlOf_data]
    intro hm
    have hm1 := List.takeWhile_subset _ hm
    have := List.mem_takeWhile_imp hm1
    simp at this
  have hdata : ("?" : String).data = [Char.ofNat 63] := by decide
  unfold pyContains
  rw [hdata, containsAux_single]
  exact Bool.eq_false_iff.mpr fun h => hq (by simpa using h)

set_option maxRecDepth 4000 in
/-- Counterexample to C9 as stated: link classification operates on the
raw href, not on the normalized URL.  For a Greenhouse href whose only
"/jobs/" occurrence sits inside the query string, `_is_job_link` accepts
the raw href although the normalized URL is not a job link, and the
orchestrator consequently stores an entry for it. -/
theorem C9_counterexample_raw_classification :
    is_job_link "https://boards.greenhouse.io/acme?x=/jobs/1"
      "boards.greenhouse.io" = true ∧
    is_job_link (cleanUrlOf "https://boards.greenhouse.io/acme?x=/jobs/1")
      "boards.greenhouse.io" = false ∧
    processPageResults "boards.greenhouse.io" 10 (fun u => (true, u))
        [⟨"https://boards.greenhouse.io/acme?x=/jobs/1", "Engineer at acme"⟩] [] =
      ["acme - Engineer: https://boards.greenhouse.io/acme"] := by decide

/-- C9 (amended): the query string and fragment are stripped before
company extraction, deduplication and validation — the validator is only
ever applied to normalized URLs, and every stored (dedup-keyed) entry is
built from the normalized URL and the company extracted from it — but
link classification operates on the raw href. -/
theorem C9_normalized_url_usage (domain : String) (limit : Nat)
    (v₁ v₂ : String → Bool × String)
    (hv : ∀ href, v₁ (cleanUrlOf href) = v₂ (cleanUrlOf href)) :
    (∀ results (found : List String),
      processPageResults domain limit v₁ results found =
        processPageResults domain limit v₂ results found) ∧
    (∀ r : SearchResult, jobEntryOf domain r =
      extract_company_name (cleanUrlOf r.href) domain ++ " - " ++
        extract_job_title r.title (extract_company_name (cleanUrlOf r.href) domain) ++
        ": " ++ cleanUrlOf r.href) ∧
    (∀ results (found : List String) entry,
      entry ∈ processPageResults domain limit v₁ results found →
        entry ∈ found ∨ ∃ r ∈ results, entry = jobEntryOf domain r) := by
  refine ⟨?_, fun r => rfl, ?_⟩
  · intro results
    induction results with
    | nil => intro found; rfl
    | cons r rest ih =>
      intro found
      simp only [processPageResults]
      rw [hv r.href]
      split_ifs <;> first | rfl | exact ih _
  · intro results
    induction results with
    | nil => exact fun found entry h => Or.inl h
    | cons r rest ih =>
      intro found entry h
      simp only [processPageResults] at h
      split_ifs at h with h1 h2 h3
      · rcases mem_setAdd h with h | h
        · exact Or.inl h
        · exact Or.inr ⟨r, List.mem_cons_self .., h⟩
      · rcases ih _ _ h with h | ⟨r', hr', he⟩
        · rcases mem_setAdd h with h | h
          · exact Or.inl h
          · exact Or.inr ⟨r, List.mem_cons_self .., h⟩
        · exact Or.inr ⟨r', List.mem_cons_of_mem _ hr', he⟩
      · rcases ih _ _ h with h | ⟨r', hr', he⟩
        · exact Or.inl h
        · exact Or.inr ⟨r', List.mem_cons_of_mem _ hr', he⟩
      · rcases ih _ _ h with h | ⟨r', hr', he⟩
        · exact Or.inl h
        · exact Or.inr ⟨r', List.mem_cons_of_mem _ hr', he⟩

/-- Witness for C9 (amended): a validator that rejects any URL containing
"?" behaves identically to the always-accepting validator on a href with a
query string, because validation only ever sees the stripped URL. -/
theorem C9_normalized_url_witness :
    processPageResults "boards.greenhouse.io" 5
        (fun u => (!(pyContains u "?"), ""))
        [⟨"https://boards.greenhouse.io/acme/jobs/1?utm=x", "Engineer Role"⟩] [] =
      processPageResults "boards.greenhouse.io" 5 (fun _ => (true, ""))
        [⟨"https://boards.greenhouse.io/acme/jobs/1?utm=x", "Engineer Role"⟩] [] :=
  (C9_normalized_url_usage "boards.greenhouse.io" 5 _ _
    (fun href => by rw [cleanUrl_no_query href]; rfl)).1 _ _

end CareerCoach
